import Mathlib

/-!
Shallow embedding of the bounded per-host context store of the
BetterCallFirewall/Hackerecon repository: the limiter
(`internal/limits/limits.go`), the per-host context and its mutating
methods (`internal/models/site_context.go`), and the registry
(`internal/driven/context_manager.go`).

Modelling conventions:
* Go `int`/`int64` values are modelled as unbounded `Int` (no verified
  claim exercises 64-bit overflow); `time.Duration` is an `Int` count of
  nanoseconds, as in Go.
* The wall clock is passed explicitly: each operation receives `now`, the
  value `time.Now().Unix()` would return during the call.  The clock is
  modelled at second granularity, so `time.Now().Add(-d).Unix()` is
  `now - d / nanosPerSecond`.
* Go maps are modelled as association lists iterated in list order;
  `range` loops become folds over that list.  Insertion of a fresh key
  appends at the end.
* Methods returning `error` return a `× Option String` (the error
  message), or `Except String` where the result is otherwise unused.
* `sync` locks, the cleanup goroutine and `float64` note-confidence
  fields carry no claim-relevant behaviour and are omitted.
-/

set_option maxRecDepth 100000

namespace Hackerecon

/-- `time.Duration` arithmetic: nanoseconds per second. -/
def nanosPerSecond : Int := 1000000000

/-- `time.Hour` as a nanosecond count. -/
def hourDuration : Int := 3600 * nanosPerSecond

/-- `limits.ContextLimits`: the six caps (`MaxAgeHours` is a `time.Duration`). -/
structure ContextLimits where
  maxRecentRequests : Int
  maxForms : Int
  maxResources : Int
  maxAgeHours : Int
  maxURLPatterns : Int
  maxNotesPerURL : Int
deriving Repr, DecidableEq

/-- `limits.DefaultContextLimits`. -/
def DefaultContextLimits : ContextLimits :=
  { maxRecentRequests := 50
    maxForms := 20
    maxResources := 30
    maxAgeHours := 24 * hourDuration
    maxURLPatterns := 100
    maxNotesPerURL := 100 }

/-- `limits.ContextLimiter`: wraps the current policy. -/
structure ContextLimiter where
  limits : ContextLimits
deriving Repr, DecidableEq

/-- `limits.NewContextLimiter` (a `nil` argument selects the defaults). -/
def NewContextLimiter (l : Option ContextLimits) : ContextLimiter :=
  { limits := l.getD DefaultContextLimits }

/-- `ContextLimiter.GetLimits`. -/
def ContextLimiter.GetLimits (cl : ContextLimiter) : ContextLimits :=
  cl.limits

/-- `ContextLimiter.UpdateLimits`: validates the six fields in source
order; on failure the receiver keeps its old policy and the error message
is returned, on success the policy is replaced wholesale. -/
def ContextLimiter.UpdateLimits (cl : ContextLimiter) (limits : ContextLimits) :
    ContextLimiter × Option String :=
  if limits.maxRecentRequests ≤ 0 then
    (cl, some ("MaxRecentRequests must be positive"))
  else if limits.maxForms ≤ 0 then
    (cl, some ("MaxForms must be positive"))
  else if limits.maxResources ≤ 0 then
    (cl, some ("MaxResources must be positive"))
  else if limits.maxAgeHours ≤ 0 then
    (cl, some ("MaxAgeHours must be positive"))
  else if limits.maxURLPatterns ≤ 0 then
    (cl, some ("MaxURLPatterns must be positive"))
  else if limits.maxNotesPerURL ≤ 0 then
    (cl, some ("MaxNotesPerURL must be positive"))
  else
    ({ limits := limits }, none)

/-- `ContextLimiter.ShouldCleanup`: `timestamp < time.Now().Add(-MaxAgeHours).Unix()`. -/
def ContextLimiter.ShouldCleanup (cl : ContextLimiter) (now timestamp : Int) : Bool :=
  timestamp < now - cl.limits.maxAgeHours / nanosPerSecond

/-- `ContextLimiter.GetMemoryUsage`: deterministic estimate from the caps. -/
def ContextLimiter.GetMemoryUsage (cl : ContextLimiter) : Int :=
  let baseSize : Int := 1024
  let requestsSize : Int := cl.limits.maxRecentRequests * 200
  let formsSize : Int := cl.limits.maxForms * 500
  let resourcesSize : Int := cl.limits.maxResources * 300
  let urlPatternsSize : Int := cl.limits.maxURLPatterns * 400
  let notesSize : Int := cl.limits.maxURLPatterns * cl.limits.maxNotesPerURL * 150
  baseSize + requestsSize + formsSize + resourcesSize + urlPatternsSize + notesSize

/-- `ContextLimiter.ValidateLimits`: absolute sanity ceilings
(note the source has no check on `MaxAgeHours`). -/
def ContextLimiter.ValidateLimits (cl : ContextLimiter) : Option String :=
  if cl.limits.maxRecentRequests > 1000 then
    some ("MaxRecentRequests too large (> 1000)")
  else if cl.limits.maxForms > 500 then
    some ("MaxForms too large (> 500)")
  else if cl.limits.maxResources > 500 then
    some ("MaxResources too large (> 500)")
  else if cl.limits.maxURLPatterns > 1000 then
    some ("MaxURLPatterns too large (> 1000)")
  else if cl.limits.maxNotesPerURL > 1000 then
    some ("MaxNotesPerURL too large (> 1000)")
  else
    none

/-! Go map embedding: association lists iterated in list order -/

/-- Go map lookup `m[k]` (comma-ok form), on the association-list model. -/
def mapGet {α : Type} (m : List (String × α)) (k : String) : Option α :=
  match m with
  | [] => none
  | e :: rest => if e.1 = k then some e.2 else mapGet rest k

/-- Go map assignment `m[k] = v`: overwrite in place when the key exists,
otherwise append the fresh key. -/
def mapInsert {α : Type} (m : List (String × α)) (k : String) (v : α) :
    List (String × α) :=
  match m with
  | [] => [(k, v)]
  | e :: rest => if e.1 = k then (k, v) :: rest else e :: mapInsert rest k v

/-- Go `delete(m, k)`. -/
def mapDelete {α : Type} (m : List (String × α)) (k : String) :
    List (String × α) :=
  m.filter (fun e => e.1 ≠ k)

/-- The `for key, v := range m { if time(v) < oldestTime { oldestTime = time(v);
oldestKey = key } }` scan shared by `AddForm`, `AddResourceMapping` and
`evictOldestContext`: entries are `(key, timestamp)` pairs, the accumulator
starts at `("", now)`. -/
def findOldest (entries : List (String × Int)) (now : Int) : String × Int :=
  entries.foldl (fun b e => if e.2 < b.2 then e else b) ("", now)

/-! Data model (`internal/models/site_context.go`) -/

/-- `models.URLNote` (the `float64` confidence field is omitted). -/
structure URLNote where
  content : String
  suspicious : Bool
  vulnHint : String
deriving Repr, DecidableEq

/-- `models.URLPattern`. -/
structure URLPattern where
  pattern : String
  method : String
  purpose : String
  notes : List URLNote
deriving Repr, DecidableEq

/-- `models.Technology` (the `float64` confidence field is omitted). -/
structure Technology where
  name : String
  reason : String
deriving Repr, DecidableEq

/-- `models.TechStack`. -/
structure TechStack where
  technologies : List Technology
deriving Repr, DecidableEq

/-- `models.TimedRequest`. -/
structure TimedRequest where
  id : String
  timestamp : Int
  method : String
  path : String
  statusCode : Int
  referer : String
  sessionID : String
  duration : Int
deriving Repr, DecidableEq

/-- `models.FormField`. -/
structure FormField where
  name : String
  fieldType : String
  sensitive : Bool
deriving Repr, DecidableEq

/-- `models.HTMLForm`. -/
structure HTMLForm where
  formID : String
  action : String
  method : String
  hasCSRFToken : Bool
  csrfTokenName : String
  fields : List FormField
  firstSeen : Int
deriving Repr, DecidableEq

/-- `models.ResourceMapping` (`Operations` is a Go map, modelled like the others). -/
structure ResourceMapping where
  resourcePath : String
  operations : List (String × String)
  identifier : String
  relatedPaths : List String
  detectedAt : Int
deriving Repr, DecidableEq

/-- `models.SiteContext`.  The mutex is omitted; `limiter` is embedded by
value (no claim depends on the pointer being shared). -/
structure SiteContext where
  host : String
  urlPatterns : List (String × URLPattern)
  techStack : Option TechStack
  recentRequests : List TimedRequest
  forms : List (String × HTMLForm)
  resourceCRUD : List (String × ResourceMapping)
  requestCount : Int
  lastActivity : Int
  limiter : ContextLimiter
  lastCleanup : Int
deriving Repr, DecidableEq

/-- `models.NewSiteContextWithLimiter` (with a non-nil limiter, as the
registry always supplies one); `now` is the clock read for `lastCleanup`. -/
def NewSiteContextWithLimiter (host : String) (limiter : ContextLimiter)
    (now : Int) : SiteContext :=
  { host := host
    urlPatterns := []
    techStack := none
    recentRequests := []
    forms := []
    resourceCRUD := []
    requestCount := 0
    lastActivity := 0
    limiter := limiter
    lastCleanup := now }

/-- `models.NewSiteContext`: the default-limiter constructor. -/
def NewSiteContext (host : String) (now : Int) : SiteContext :=
  NewSiteContextWithLimiter host (NewContextLimiter none) now

/-- `SiteContext.AddRecentRequest`.  Stale requests are silently skipped;
otherwise append, truncate the head down to `MaxRecentRequests` when
exceeded (the Go slice expression would panic for a negative cap; the
theorems only use nonnegative caps), bump `requestCount`, refresh
`lastActivity`.  Always returns a nil error. -/
def SiteContext.AddRecentRequest (sc : SiteContext) (now : Int)
    (request : TimedRequest) : SiteContext × Option String :=
  if sc.limiter.ShouldCleanup now request.timestamp then
    (sc, none)
  else
    let rs := sc.recentRequests ++ [request]
    let limits := sc.limiter.GetLimits
    let rs :=
      if (rs.length : Int) > limits.maxRecentRequests then
        rs.drop (((rs.length : Int) - limits.maxRecentRequests).toNat)
      else rs
    ({ sc with
        recentRequests := rs
        requestCount := sc.requestCount + 1
        lastActivity := now }, none)

/-- `SiteContext.AddForm`: at capacity, scan for the form with the smallest
`FirstSeen` (strictly below the scan's `now` seed) and delete it when the
winning key is non-empty; then insert/overwrite by `FormID` and refresh
`lastActivity`. -/
def SiteContext.AddForm (sc : SiteContext) (now : Int) (form : HTMLForm) :
    SiteContext × Option String :=
  let limits := sc.limiter.GetLimits
  let forms :=
    if (sc.forms.length : Int) ≥ limits.maxForms then
      let oldest := findOldest (sc.forms.map (fun e => (e.1, e.2.firstSeen))) now
      if oldest.1 ≠ "" then mapDelete sc.forms oldest.1 else sc.forms
    else sc.forms
  ({ sc with
      forms := mapInsert forms form.formID form
      lastActivity := now }, none)

/-- `SiteContext.AddResourceMapping`: same eviction scan as `AddForm`,
keyed by `DetectedAt`. -/
def SiteContext.AddResourceMapping (sc : SiteContext) (now : Int)
    (key : String) (mapping : ResourceMapping) : SiteContext × Option String :=
  let limits := sc.limiter.GetLimits
  let crud :=
    if (sc.resourceCRUD.length : Int) ≥ limits.maxResources then
      let oldest := findOldest (sc.resourceCRUD.map (fun e => (e.1, e.2.detectedAt))) now
      if oldest.1 ≠ "" then mapDelete sc.resourceCRUD oldest.1 else sc.resourceCRUD
    else sc.resourceCRUD
  ({ sc with
      resourceCRUD := mapInsert crud key mapping
      lastActivity := now }, none)

/-- The capacity branch of `SiteContext.UpdateURLPattern`: delete the first
pattern (in iteration order) holding zero notes, if any. -/
def deleteFirstNoteless : List (String × URLPattern) → List (String × URLPattern)
  | [] => []
  | e :: rest =>
    if e.2.notes.length = 0 then rest else e :: deleteFirstNoteless rest

/-- `strings.SplitN(patternKey, ":", 2)` followed by taking the method part
(empty when the key holds no colon). -/
def splitNMethod (patternKey : String) : String :=
  match patternKey.splitOn ":" with
  | [] => ""
  | [_] => ""
  | m :: _ => m

/-- `SiteContext.UpdateURLPattern`.  The note pointer is modelled as a
value: the source dereferences it unconditionally on the paths taken here,
and its only in-repo caller (the registry, which performs the nil checks)
never passes nil through. -/
def SiteContext.UpdateURLPattern (sc : SiteContext) (now : Int)
    (patternKey : String) (urlPattern : Option URLPattern) (note : URLNote) :
    SiteContext × Option String :=
  let limits := sc.limiter.GetLimits
  let patterns :=
    if (sc.urlPatterns.length : Int) ≥ limits.maxURLPatterns then
      deleteFirstNoteless sc.urlPatterns
    else sc.urlPatterns
  let pattern :=
    match mapGet patterns patternKey with
    | some existing =>
      let notes :=
        if (existing.notes.length : Int) ≥ limits.maxNotesPerURL then
          existing.notes.tail
        else existing.notes
      { existing with notes := notes ++ [note] }
    | none =>
      match urlPattern with
      | some p => p
      | none =>
        { pattern := patternKey
          method := splitNMethod patternKey
          purpose := ""
          notes := [note] }
  let pattern :=
    if note.content ≠ "" then { pattern with purpose := note.content } else pattern
  ({ sc with
      urlPatterns := mapInsert patterns patternKey pattern
      lastActivity := now }, none)

/-- `SiteContext.GetMemoryUsage`: delegates to the limiter. -/
def SiteContext.GetMemoryUsage (sc : SiteContext) : Int :=
  sc.limiter.GetMemoryUsage

/-! Registry (`internal/driven/context_manager.go`) -/

/-- `driven.SiteContextManager` (cleanup ticker and stop channel omitted:
they carry no claim-relevant state). -/
structure SiteContextManager where
  contexts : List (String × SiteContext)
  limiter : ContextLimiter
  maxContexts : Int
  lastGlobalCleanup : Int
deriving Repr, DecidableEq

/-- A manager as produced by `NewSiteContextManagerWithOptions`: empty
registry with the supplied limiter and cap. -/
def newManager (limiter : ContextLimiter) (maxContexts : Int) (now : Int) :
    SiteContextManager :=
  { contexts := []
    limiter := limiter
    maxContexts := maxContexts
    lastGlobalCleanup := now }

/-- `SiteContextManager.evictOldestContext`: scan all contexts for the
smallest `last_activity` strictly below the scan's `now` seed; delete the
winner only when its host key is non-empty. -/
def SiteContextManager.evictOldestContext (m : SiteContextManager) (now : Int) :
    SiteContextManager :=
  let oldest := findOldest (m.contexts.map (fun e => (e.1, e.2.lastActivity))) now
  if oldest.1 ≠ "" then
    { m with contexts := mapDelete m.contexts oldest.1 }
  else m

/-- `SiteContextManager.GetOrCreate`: return the existing context, or evict
when at capacity and insert a fresh context sharing the registry's limiter. -/
def SiteContextManager.GetOrCreate (m : SiteContextManager) (now : Int)
    (host : String) : SiteContextManager × SiteContext :=
  match mapGet m.contexts host with
  | some c => (m, c)
  | none =>
    let m :=
      if (m.contexts.length : Int) ≥ m.maxContexts then
        m.evictOldestContext now
      else m
    let newContext := NewSiteContextWithLimiter host m.limiter now
    ({ m with contexts := mapInsert m.contexts host newContext }, newContext)

/-- `SiteContextManager.UpdateURLPattern`: nil-argument validation, then
delegate to the context with the composite `method:url` key and a
pre-built single-note pattern. -/
def SiteContextManager.UpdateURLPattern (_m : SiteContextManager) (now : Int)
    (siteContext : Option SiteContext) (url method : String)
    (urlNote : Option URLNote) : Except String SiteContext :=
  match siteContext with
  | none => .error ("siteContext cannot be nil")
  | some sc =>
    match urlNote with
    | none => .error ("urlNote cannot be nil")
    | some note =>
      let patternKey := method ++ ":" ++ url
      let urlPattern : URLPattern :=
        { pattern := url
          method := method
          purpose := if note.content ≠ "" then note.content else ""
          notes := [note] }
      .ok (sc.UpdateURLPattern now patternKey (some urlPattern) note).1

/-! Call sequences for the invariant claims -/

/-- One mutating call on a per-host context, with the clock value read
during the call. -/
inductive MutOp where
  | addRecentRequest (now : Int) (request : TimedRequest)
  | addForm (now : Int) (form : HTMLForm)
  | addResourceMapping (now : Int) (key : String) (mapping : ResourceMapping)
  | updateURLPattern (now : Int) (patternKey : String)
      (urlPattern : Option URLPattern) (note : URLNote)
deriving Repr

/-- Apply one mutating call (all four return a nil error; the state is kept). -/
def applyOp (sc : SiteContext) : MutOp → SiteContext
  | .addRecentRequest now request => (sc.AddRecentRequest now request).1
  | .addForm now form => (sc.AddForm now form).1
  | .addResourceMapping now key mapping => (sc.AddResourceMapping now key mapping).1
  | .updateURLPattern now patternKey urlPattern note =>
    (sc.UpdateURLPattern now patternKey urlPattern note).1

/-- Apply a finite sequence of mutating calls in order. -/
def applyOps (sc : SiteContext) (ops : List MutOp) : SiteContext :=
  ops.foldl applyOp sc

/-- Run a sequence of `GetOrCreate` calls, each given as `(now, host)`. -/
def getOrCreateRun (m : SiteContextManager) (calls : List (Int × String)) :
    SiteContextManager :=
  calls.foldl (fun acc c => (acc.GetOrCreate c.1 c.2).1) m

/-- The claim-C2 registry invariant for pure `GetOrCreate` runs: distinct
keys, no empty host, every stored context still at its initial
`lastActivity = 0`, and the registry within its cap. -/
def managerInv (m : SiteContextManager) : Prop :=
  (m.contexts.map Prod.fst).Nodup ∧
  (∀ e ∈ m.contexts, e.1 ≠ "") ∧
  (∀ e ∈ m.contexts, e.2.lastActivity = 0) ∧
  ((m.contexts.length : Int) ≤ m.maxContexts)

/-! Lemmas about the association-list map operations -/

theorem mapGet_eq_none_iff {α : Type} (m : List (String × α)) (k : String) :
    mapGet m k = none ↔ k ∉ m.map Prod.fst := by
  induction m with
  | nil => simp [mapGet]
  | cons e rest ih =>
    simp only [mapGet, List.map_cons, List.mem_cons]
    by_cases h : e.1 = k
    · simp [h]
    · simp only [if_neg h, ih]
      constructor
      · intro hk
        push_neg
        exact ⟨fun hke => h hke.symm, hk⟩
      · intro hk
        push_neg at hk
        exact hk.2

theorem mapInsert_append_of_not_mem {α : Type} (m : List (String × α))
    (k : String) (v : α) (h : k ∉ m.map Prod.fst) :
    mapInsert m k v = m ++ [(k, v)] := by
  induction m with
  | nil => rfl
  | cons e rest ih =>
    simp only [List.map_cons, List.mem_cons] at h
    push_neg at h
    obtain ⟨h1, h2⟩ := h
    have hne : ¬ (e.1 = k) := fun he => h1 he.symm
    simp only [mapInsert, if_neg hne, List.cons_append, List.cons.injEq, true_and]
    exact ih h2

theorem length_mapInsert_of_mem {α : Type} (m : List (String × α))
    (k : String) (v : α) (h : k ∈ m.map Prod.fst) :
    (mapInsert m k v).length = m.length := by
  induction m with
  | nil => simp at h
  | cons e rest ih =>
    by_cases he : e.1 = k
    · simp [mapInsert, he]
    · simp only [List.map_cons, List.mem_cons] at h
      have hk : k ∈ rest.map Prod.fst := by
        rcases h with h | h
        · exact absurd h.symm he
        · exact h
      simp [mapInsert, he, ih hk]

theorem mapDelete_sublist {α : Type} (m : List (String × α)) (k : String) :
    (mapDelete m k).Sublist m :=
  List.filter_sublist m

theorem mem_of_mem_mapDelete {α : Type} {m : List (String × α)} {k : String}
    {e : String × α} (h : e ∈ mapDelete m k) : e ∈ m ∧ e.1 ≠ k := by
  have := List.mem_filter.1 h
  exact ⟨this.1, by simpa using this.2⟩

theorem mem_mapDelete_of_mem {α : Type} {m : List (String × α)} {k : String}
    {e : String × α} (hmem : e ∈ m) (hne : e.1 ≠ k) : e ∈ mapDelete m k :=
  List.mem_filter.2 ⟨hmem, by simpa using hne⟩

theorem mem_keys_mapDelete {α : Type} {m : List (String × α)} {k k0 : String}
    (h : k ∈ m.map Prod.fst) (hne : k ≠ k0) :
    k ∈ (mapDelete m k0).map Prod.fst := by
  obtain ⟨e, hemem, hek⟩ := List.mem_map.1 h
  exact List.mem_map.2 ⟨e, mem_mapDelete_of_mem hemem (hek ▸ hne), hek⟩

theorem keys_mapDelete_subset {α : Type} (m : List (String × α)) (k : String) :
    (mapDelete m k).map Prod.fst ⊆ m.map Prod.fst :=
  ((mapDelete_sublist m k).map Prod.fst).subset

theorem length_mapDelete_add_one {α : Type} (m : List (String × α)) (k : String)
    (hnodup : (m.map Prod.fst).Nodup) (h : k ∈ m.map Prod.fst) :
    (mapDelete m k).length + 1 = m.length := by
  induction m with
  | nil => simp at h
  | cons e rest ih =>
    obtain ⟨k1, v1⟩ := e
    simp only [List.map_cons, List.nodup_cons] at hnodup
    by_cases he : k1 = k
    · subst he
      have hall : ∀ e' ∈ rest, e'.1 ≠ k1 := fun e' he' hk =>
        hnodup.1 (List.mem_map.2 ⟨e', he', hk⟩)
      have hdel : mapDelete rest k1 = rest := by
        simp only [mapDelete]
        exact List.filter_eq_self.2 (fun e' he' => by simpa using hall e' he')
      simp only [mapDelete] at hdel
      simp only [mapDelete]
      rw [List.filter_cons_of_neg (by simp), hdel]
      simp
    · simp only [List.map_cons, List.mem_cons] at h
      have hk : k ∈ rest.map Prod.fst := by
        rcases h with h | h
        · exact absurd h.symm he
        · exact h
      have hrec := ih hnodup.2 hk
      simp only [mapDelete] at hrec ⊢
      rw [List.filter_cons_of_pos (by simp [he])]
      simp only [List.length_cons]
      omega

/-! Lemmas about the oldest-entry scan -/

theorem foldl_oldest_stable (l : List (String × Int)) (acc : String × Int)
    (h : ∀ e ∈ l, ¬ (e.2 < acc.2)) :
    l.foldl (fun b e => if e.2 < b.2 then e else b) acc = acc := by
  induction l with
  | nil => rfl
  | cons e rest ih =>
    have he : ¬ (e.2 < acc.2) := h e (by simp)
    simp only [List.foldl_cons, if_neg he]
    exact ih (fun e' h' => h e' (by simp [h']))

theorem foldl_oldest_min (l : List (String × Int)) (acc e0 : String × Int)
    (hmem : e0 ∈ l) (hacc : e0.2 < acc.2)
    (hmin : ∀ e ∈ l, e ≠ e0 → e0.2 < e.2) :
    l.foldl (fun b e => if e.2 < b.2 then e else b) acc = e0 := by
  induction l generalizing acc with
  | nil => cases hmem
  | cons e rest ih =>
    by_cases he : e = e0
    · subst he
      simp only [List.foldl_cons, if_pos hacc]
      apply foldl_oldest_stable
      intro e' h'
      by_cases h0 : e' = e
      · subst h0; omega
      · have := hmin e' (by simp [h']) h0; omega
    · have hmem' : e0 ∈ rest := by
        rcases List.mem_cons.1 hmem with h | h
        · exact absurd h.symm he
        · exact h
      have hlt : e0.2 < e.2 := hmin e (by simp) he
      simp only [List.foldl_cons]
      by_cases hcond : e.2 < acc.2
      · rw [if_pos hcond]
        exact ih e hmem' hlt (fun e' h' hne => hmin e' (by simp [h']) hne)
      · rw [if_neg hcond]
        exact ih acc hmem' hacc (fun e' h' hne => hmin e' (by simp [h']) hne)

theorem findOldest_eq_min (l : List (String × Int)) (now : Int)
    (e0 : String × Int) (hmem : e0 ∈ l) (hlt : e0.2 < now)
    (hmin : ∀ e ∈ l, e ≠ e0 → e0.2 < e.2) :
    findOldest l now = e0 :=
  foldl_oldest_min l ("", now) e0 hmem hlt hmin

theorem findOldest_head (e : String × Int) (rest : List (String × Int))
    (now : Int) (he : e.2 < now) (hrest : ∀ e' ∈ rest, ¬ (e'.2 < e.2)) :
    findOldest (e :: rest) now = e := by
  simp only [findOldest, List.foldl_cons, if_pos he]
  exact foldl_oldest_stable rest e hrest

/-! Per-operation facts for the bound invariant (claim C1) -/

theorem addRecentRequest_limiter (sc : SiteContext) (now : Int) (r : TimedRequest) :
    ((sc.AddRecentRequest now r).1).limiter = sc.limiter := by
  unfold SiteContext.AddRecentRequest
  split <;> rfl

theorem applyOp_limiter (sc : SiteContext) (op : MutOp) :
    (applyOp sc op).limiter = sc.limiter := by
  cases op with
  | addRecentRequest now r => exact addRecentRequest_limiter sc now r
  | addForm now f => rfl
  | addResourceMapping now k mp => rfl
  | updateURLPattern now k p n => rfl

theorem addForm_recentRequests (sc : SiteContext) (now : Int) (f : HTMLForm) :
    ((sc.AddForm now f).1).recentRequests = sc.recentRequests := rfl

theorem addResourceMapping_recentRequests (sc : SiteContext) (now : Int)
    (k : String) (mp : ResourceMapping) :
    ((sc.AddResourceMapping now k mp).1).recentRequests = sc.recentRequests := rfl

theorem updateURLPattern_recentRequests (sc : SiteContext) (now : Int)
    (k : String) (p : Option URLPattern) (n : URLNote) :
    ((sc.UpdateURLPattern now k p n).1).recentRequests = sc.recentRequests := rfl

theorem addRecentRequest_length_le (sc : SiteContext) (now : Int) (r : TimedRequest)
    (hmax : 0 ≤ sc.limiter.GetLimits.maxRecentRequests)
    (hlen : (sc.recentRequests.length : Int) ≤ sc.limiter.GetLimits.maxRecentRequests) :
    (((sc.AddRecentRequest now r).1).recentRequests.length : Int)
      ≤ sc.limiter.GetLimits.maxRecentRequests := by
  unfold SiteContext.AddRecentRequest
  split
  · exact hlen
  · dsimp only
    split
    · rename_i hgt
      simp only [List.length_drop, List.length_append, List.length_singleton] at hgt ⊢
      omega
    · rename_i hle
      simp only [List.length_append, List.length_singleton] at hle ⊢
      omega

theorem applyOp_recentRequests_le (sc : SiteContext) (op : MutOp)
    (hmax : 0 ≤ sc.limiter.GetLimits.maxRecentRequests)
    (hlen : (sc.recentRequests.length : Int) ≤ sc.limiter.GetLimits.maxRecentRequests) :
    ((applyOp sc op).recentRequests.length : Int)
      ≤ sc.limiter.GetLimits.maxRecentRequests := by
  cases op with
  | addRecentRequest now r => exact addRecentRequest_length_le sc now r hmax hlen
  | addForm now f => rw [applyOp, addForm_recentRequests]; exact hlen
  | addResourceMapping now k mp =>
    rw [applyOp, addResourceMapping_recentRequests]; exact hlen
  | updateURLPattern now k p n =>
    rw [applyOp, updateURLPattern_recentRequests]; exact hlen

theorem applyOps_recentRequests_le (ops : List MutOp) (sc : SiteContext)
    (hmax : 0 ≤ sc.limiter.GetLimits.maxRecentRequests)
    (hlen : (sc.recentRequests.length : Int) ≤ sc.limiter.GetLimits.maxRecentRequests) :
    ((applyOps sc ops).recentRequests.length : Int)
      ≤ sc.limiter.GetLimits.maxRecentRequests := by
  induction ops generalizing sc with
  | nil => exact hlen
  | cons op rest ih =>
    have hstep := applyOp_recentRequests_le sc op hmax hlen
    have hlim := applyOp_limiter sc op
    have := ih (applyOp sc op) (by rw [hlim]; exact hmax) (by rw [hlim]; exact hstep)
    rw [hlim] at this
    exact this

/-! Registry invariant machinery (claim C2) -/

theorem evictOldest_deletes (m : SiteContextManager) (now : Int)
    (hnow : 0 < now) (hne : m.contexts ≠ [])
    (hkeys : ∀ e ∈ m.contexts, e.1 ≠ "")
    (hla : ∀ e ∈ m.contexts, e.2.lastActivity = 0) :
    ∃ k, k ∈ m.contexts.map Prod.fst ∧
      (m.evictOldestContext now).contexts = mapDelete m.contexts k := by
  obtain ⟨e1, rest, hcons⟩ := List.exists_cons_of_ne_nil hne
  refine ⟨e1.1, by rw [hcons]; exact List.mem_map_of_mem Prod.fst (by simp), ?_⟩
  unfold SiteContextManager.evictOldestContext
  have hfind : findOldest (m.contexts.map (fun e => (e.1, e.2.lastActivity))) now
      = (e1.1, e1.2.lastActivity) := by
    rw [hcons, List.map_cons]
    apply findOldest_head
    · have : e1.2.lastActivity = 0 := hla e1 (by rw [hcons]; simp)
      simp only [this]
      exact hnow
    · intro e' he'
      obtain ⟨e, hemem, rfl⟩ := List.mem_map.1 he'
      have h1 : e.2.lastActivity = 0 := hla e (by rw [hcons]; simp [hemem])
      have h2 : e1.2.lastActivity = 0 := hla e1 (by rw [hcons]; simp)
      simp only [h1, h2]
      omega
  rw [hfind]
  have hk1 : e1.1 ≠ "" := hkeys e1 (by rw [hcons]; simp)
  simp only [if_pos hk1]

theorem getOrCreate_inv (m : SiteContextManager) (now : Int) (host : String)
    (hmaxc : 1 ≤ m.maxContexts) (hhost : host ≠ "") (hnow : 0 < now)
    (hinv : managerInv m) :
    managerInv (m.GetOrCreate now host).1 ∧
      (m.GetOrCreate now host).1.maxContexts = m.maxContexts := by
  obtain ⟨hnodup, hkeys, hla, hlen⟩ := hinv
  unfold SiteContextManager.GetOrCreate
  cases hget : mapGet m.contexts host with
  | some c => exact ⟨⟨hnodup, hkeys, hla, hlen⟩, rfl⟩
  | none =>
    have hhostmem : host ∉ m.contexts.map Prod.fst := (mapGet_eq_none_iff _ _).1 hget
    dsimp only
    by_cases hcap : (m.contexts.length : Int) ≥ m.maxContexts
    · rw [if_pos hcap]
      have hne : m.contexts ≠ [] := by
        intro hnil
        rw [hnil] at hcap
        simp at hcap
        omega
      obtain ⟨k, hkmem, hdel⟩ := evictOldest_deletes m now hnow hne hkeys hla
      have hlim : (m.evictOldestContext now).limiter = m.limiter := by
        unfold SiteContextManager.evictOldestContext
        dsimp only
        split <;> rfl
      have hmaxeq : (m.evictOldestContext now).maxContexts = m.maxContexts := by
        unfold SiteContextManager.evictOldestContext
        dsimp only
        split <;> rfl
      have hsub : ∀ e ∈ (m.evictOldestContext now).contexts, e ∈ m.contexts := by
        intro e he
        rw [hdel] at he
        exact (mem_of_mem_mapDelete he).1
      have hnodup1 : ((m.evictOldestContext now).contexts.map Prod.fst).Nodup := by
        rw [hdel]
        exact hnodup.sublist ((mapDelete_sublist m.contexts k).map Prod.fst)
      have hhost1 : host ∉ (m.evictOldestContext now).contexts.map Prod.fst := by
        rw [hdel]
        intro hc
        exact hhostmem (keys_mapDelete_subset m.contexts k hc)
      have hlen1 : (m.evictOldestContext now).contexts.length + 1 = m.contexts.length := by
        rw [hdel]
        exact length_mapDelete_add_one m.contexts k hnodup hkmem
      rw [mapInsert_append_of_not_mem _ _ _ hhost1]
      refine ⟨⟨?_, ?_, ?_, ?_⟩, hmaxeq⟩
      · rw [List.map_append]
        simp only [List.map_cons, List.map_nil]
        rw [List.nodup_append]
        exact ⟨hnodup1, List.nodup_singleton host,
          by simp only [List.disjoint_singleton]; exact hhost1⟩
      · intro e he
        rcases List.mem_append.1 he with h | h
        · exact hkeys e (hsub e h)
        · simp only [List.mem_singleton] at h
          rw [h]
          exact hhost
      · intro e he
        rcases List.mem_append.1 he with h | h
        · exact hla e (hsub e h)
        · simp only [List.mem_singleton] at h
          rw [h]
          rfl
      · rw [List.length_append]
        simp only [List.length_singleton, hmaxeq]
        omega
    · rw [if_neg hcap]
      rw [mapInsert_append_of_not_mem _ _ _ hhostmem]
      refine ⟨⟨?_, ?_, ?_, ?_⟩, rfl⟩
      · rw [List.map_append]
        simp only [List.map_cons, List.map_nil]
        rw [List.nodup_append]
        exact ⟨hnodup, List.nodup_singleton host,
          by simp only [List.disjoint_singleton]; exact hhostmem⟩
      · intro e he
        rcases List.mem_append.1 he with h | h
        · exact hkeys e h
        · simp only [List.mem_singleton] at h
          rw [h]
          exact hhost
      · intro e he
        rcases List.mem_append.1 he with h | h
        · exact hla e h
        · simp only [List.mem_singleton] at h
          rw [h]
          rfl
      · rw [List.length_append]
        simp only [List.length_singleton]
        omega

theorem getOrCreateRun_inv (calls : List (Int × String)) (m : SiteContextManager)
    (hmaxc : 1 ≤ m.maxContexts)
    (hcalls : ∀ c ∈ calls, 0 < c.1 ∧ c.2 ≠ "")
    (hinv : managerInv m) :
    managerInv (getOrCreateRun m calls) ∧
      (getOrCreateRun m calls).maxContexts = m.maxContexts := by
  induction calls generalizing m with
  | nil => exact ⟨hinv, rfl⟩
  | cons c rest ih =>
    obtain ⟨hc1, hc2⟩ := hcalls c (by simp)
    have hstep := getOrCreate_inv m c.1 c.2 hmaxc hc2 hc1 hinv
    have hcons : getOrCreateRun m (c :: rest)
        = getOrCreateRun ((m.GetOrCreate c.1 c.2).1) rest := rfl
    rw [hcons]
    have := ih ((m.GetOrCreate c.1 c.2).1)
      (by rw [hstep.2]; exact hmaxc)
      (fun c' hc' => hcalls c' (by simp [hc']))
      hstep.1
    exact ⟨this.1, by rw [this.2, hstep.2]⟩

/-! Claim C1 -/

/-- Claim C1 counterexample: the URL-pattern bound fails.  With
`MaxURLPatterns = 1`, two `UpdateURLPattern` calls on fresh keys leave the
map with 2 entries — the capacity branch only deletes a pattern with zero
notes, and every pattern inserted by these calls carries one note — so the
size exceeds the cap immediately after the mutating call returns. -/
theorem urlPatterns_bound_violated :
    ¬ (((applyOps (NewSiteContextWithLimiter "h"
            { limits := { DefaultContextLimits with maxURLPatterns := 1 } } 0)
          [MutOp.updateURLPattern 1 "GET:/a" none
              { content := "n", suspicious := false, vulnHint := "" },
           MutOp.updateURLPattern 2 "GET:/b" none
              { content := "n", suspicious := false, vulnHint := "" }]).urlPatterns.length : Int)
        ≤ ({ DefaultContextLimits with maxURLPatterns := 1 } : ContextLimits).maxURLPatterns) := by
  decide

/-- Claim C1 (amended): of the five bounds, the one on `RecentRequests`
holds unconditionally — after each call of any finite sequence of mutating
calls starting from a fresh context, `len(RecentRequests) ≤
MaxRecentRequests` (for a nonnegative cap).  The `Forms`, `ResourceCRUD`,
`URLPatterns` and per-pattern note bounds do not hold in general. -/
theorem recentRequests_bound_after_calls (host : String) (limiter : ContextLimiter)
    (now0 : Int) (ops : List MutOp) (n : ℕ)
    (hmax : 0 ≤ limiter.GetLimits.maxRecentRequests) :
    (((applyOps (NewSiteContextWithLimiter host limiter now0)
        (ops.take n)).recentRequests.length : Int))
      ≤ limiter.GetLimits.maxRecentRequests :=
  applyOps_recentRequests_le (ops.take n) (NewSiteContextWithLimiter host limiter now0)
    hmax (by simpa using hmax)

/-- Witness for the amended claim C1 at a concrete input. -/
theorem recentRequests_bound_after_calls_witness :
    (((applyOps (NewSiteContextWithLimiter "h" (NewContextLimiter none) 0)
        (([MutOp.addRecentRequest 0
            { id := "", timestamp := 1, method := "GET", path := "/",
              statusCode := 200, referer := "", sessionID := "", duration := 0 }]).take 1)).recentRequests.length : Int))
      ≤ (NewContextLimiter none).GetLimits.maxRecentRequests :=
  recentRequests_bound_after_calls "h" (NewContextLimiter none) 0
    [MutOp.addRecentRequest 0
      { id := "", timestamp := 1, method := "GET", path := "/",
        statusCode := 200, referer := "", sessionID := "", duration := 0 }] 1
    (by decide)

/-! Claim C2 -/

/-- Claim C2 counterexample: with `MaxContexts = 1`, the `GetOrCreate`
sequence over the distinct hosts `""` and `"a"` leaves 2 contexts in the
registry — the eviction scan refuses to delete the winner when its host key
is the empty string. -/
theorem registry_bound_violated_empty_host :
    ¬ (((getOrCreateRun (newManager (NewContextLimiter none) 1 0)
          [(5, ""), (5, "a")]).contexts.length : Int)
        ≤ (newManager (NewContextLimiter none) 1 0).maxContexts) := by
  decide

/-- Claim C2 (amended): for every sequence of `GetOrCreate` calls whose
hosts are non-empty, evaluated at positive clock times, on a registry with
`MaxContexts ≥ 1` that starts empty, the registry holds at most
`MaxContexts` contexts after every call. -/
theorem registry_bound_nonempty_hosts (limiter : ContextLimiter) (maxC now0 : Int)
    (calls : List (Int × String)) (n : ℕ)
    (hmaxc : 1 ≤ maxC)
    (hcalls : ∀ c ∈ calls, 0 < c.1 ∧ c.2 ≠ "") :
    ((getOrCreateRun (newManager limiter maxC now0) (calls.take n)).contexts.length : Int)
      ≤ maxC := by
  have hinv0 : managerInv (newManager limiter maxC now0) := by
    refine ⟨List.nodup_nil, by simp [newManager], by simp [newManager], ?_⟩
    simp only [newManager, List.length_nil, Nat.cast_zero]
    omega
  have h := getOrCreateRun_inv (calls.take n) (newManager limiter maxC now0)
    hmaxc (fun c hc => hcalls c (List.take_subset n calls hc)) hinv0
  have hlen := h.1.2.2.2
  rw [h.2] at hlen
  exact hlen

/-- Witness for the amended claim C2 at a concrete input. -/
theorem registry_bound_nonempty_hosts_witness :
    ((getOrCreateRun (newManager (NewContextLimiter none) 1 0)
        ([(5, "a"), (6, "b")].take 2)).contexts.length : Int) ≤ 1 :=
  registry_bound_nonempty_hosts (NewContextLimiter none) 1 0 [(5, "a"), (6, "b")] 2
    (by decide) (by decide)

/-! Claim C3 -/

/-- Claim C3 counterexample: a registry at capacity (`MaxContexts = 1`)
holding a single context (its `lastActivity` values trivially pairwise
distinct) whose `lastActivity` equals the current clock.  `GetOrCreate`
for the fresh host `"b"` evicts nothing — the scan only accepts strictly
older entries than its `now` seed — so the smallest-`lastActivity`
context `"a"` stays and both hosts end up stored. -/
theorem getOrCreate_no_eviction_at_now :
    ((SiteContextManager.GetOrCreate
        { contexts := [("a",
            { NewSiteContextWithLimiter "a" (NewContextLimiter none) 0 with
                lastActivity := 5 })],
          limiter := NewContextLimiter none, maxContexts := 1,
          lastGlobalCleanup := 0 }
        5 "b").1.contexts.map Prod.fst) = ["a", "b"] := by
  decide

/-- Claim C3 (amended): if the registry holds exactly `MaxContexts`
contexts, the strictly smallest `lastActivity` belongs to entry `e0`, that
smallest value is strictly below the current clock, and `e0`'s host key is
non-empty, then `GetOrCreate` for an absent host removes exactly `e0`,
inserts a fresh context for the new host, and keeps every other entry. -/
theorem getOrCreate_evicts_min_lastActivity (m : SiteContextManager) (now : Int)
    (host : String) (e0 : String × SiteContext)
    (hnodup : (m.contexts.map Prod.fst).Nodup)
    (hmem : e0 ∈ m.contexts)
    (hmin : ∀ e ∈ m.contexts, e ≠ e0 → e0.2.lastActivity < e.2.lastActivity)
    (hlt : e0.2.lastActivity < now)
    (hkey : e0.1 ≠ "")
    (habs : mapGet m.contexts host = none)
    (hfull : (m.contexts.length : Int) = m.maxContexts) :
    (m.GetOrCreate now host).1.contexts
        = mapDelete m.contexts e0.1
          ++ [(host, NewSiteContextWithLimiter host m.limiter now)]
    ∧ e0 ∉ (m.GetOrCreate now host).1.contexts
    ∧ ∀ e ∈ m.contexts, e ≠ e0 → e ∈ (m.GetOrCreate now host).1.contexts := by
  have hhostmem : host ∉ m.contexts.map Prod.fst := (mapGet_eq_none_iff _ _).1 habs
  have hfind : findOldest (m.contexts.map (fun e => (e.1, e.2.lastActivity))) now
      = (e0.1, e0.2.lastActivity) := by
    apply findOldest_eq_min
    · exact List.mem_map_of_mem _ hmem
    · exact hlt
    · intro e' he' hne
      obtain ⟨e, hemem, rfl⟩ := List.mem_map.1 he'
      by_cases hee : e = e0
      · subst hee
        exact absurd rfl hne
      · exact hmin e hemem hee
  have hmain : (m.GetOrCreate now host).1.contexts
      = mapDelete m.contexts e0.1
        ++ [(host, NewSiteContextWithLimiter host m.limiter now)] := by
    unfold SiteContextManager.GetOrCreate
    rw [habs]
    dsimp only
    rw [if_pos (by omega)]
    unfold SiteContextManager.evictOldestContext
    dsimp only
    rw [hfind]
    rw [if_pos hkey]
    dsimp only
    rw [mapInsert_append_of_not_mem _ _ _
      (fun hc => hhostmem (keys_mapDelete_subset m.contexts e0.1 hc))]
  refine ⟨hmain, ?_, ?_⟩
  · intro hc
    rw [hmain] at hc
    rcases List.mem_append.1 hc with h | h
    · exact (mem_of_mem_mapDelete h).2 rfl
    · simp only [List.mem_singleton] at h
      apply hhostmem
      rw [show host = e0.1 by rw [h]]
      exact List.mem_map_of_mem _ hmem
  · intro e he hne
    rw [hmain]
    apply List.mem_append.2
    left
    apply mem_mapDelete_of_mem he
    intro hfst
    exact hne (List.inj_on_of_nodup_map hnodup he hmem hfst)

/-- Witness for the amended claim C3 at a concrete input: with two stored
contexts of distinct past `lastActivity` values (5 and 3), the next
`GetOrCreate` at time 10 for the fresh host `"c"` evicts exactly the
entry with `lastActivity = 3`. -/
theorem getOrCreate_evicts_min_lastActivity_witness :
    (SiteContextManager.GetOrCreate
        { contexts := [("a",
            { NewSiteContextWithLimiter "a" (NewContextLimiter none) 0 with
                lastActivity := 5 }),
          ("b",
            { NewSiteContextWithLimiter "b" (NewContextLimiter none) 0 with
                lastActivity := 3 })],
          limiter := NewContextLimiter none, maxContexts := 2,
          lastGlobalCleanup := 0 }
        10 "c").1.contexts
      = mapDelete
          [("a",
            { NewSiteContextWithLimiter "a" (NewContextLimiter none) 0 with
                lastActivity := 5 }),
           ("b",
            { NewSiteContextWithLimiter "b" (NewContextLimiter none) 0 with
                lastActivity := 3 })] "b"
        ++ [("c", NewSiteContextWithLimiter "c" (NewContextLimiter none) 10)] :=
  (getOrCreate_evicts_min_lastActivity
    { contexts := [("a",
        { NewSiteContextWithLimiter "a" (NewContextLimiter none) 0 with
            lastActivity := 5 }),
      ("b",
        { NewSiteContextWithLimiter "b" (NewContextLimiter none) 0 with
            lastActivity := 3 })],
      limiter := NewContextLimiter none, maxContexts := 2,
      lastGlobalCleanup := 0 }
    10 "c"
    ("b", { NewSiteContextWithLimiter "b" (NewContextLimiter none) 0 with
        lastActivity := 3 })
    (by decide) (by decide) (by decide) (by decide) (by decide) (by decide)
    (by decide)).1

/-! Claim C10 -/

/-- Claim C10: when `AddForm` is called with a form whose `FormID` is
already stored while the map is at or above `MaxForms`, the capacity
branch still runs: the entry with the strictly smallest `FirstSeen`
(provided it is older than the current clock, its key non-empty and
distinct from the incoming `FormID`) is deleted before the overwrite, so
the map shrinks by one. -/
theorem addForm_capacity_branch_on_existing (sc : SiteContext) (now : Int)
    (form : HTMLForm) (f0 : String × HTMLForm)
    (hnodup : (sc.forms.map Prod.fst).Nodup)
    (hmem : f0 ∈ sc.forms)
    (hmin : ∀ e ∈ sc.forms, e ≠ f0 → f0.2.firstSeen < e.2.firstSeen)
    (hold : f0.2.firstSeen < now)
    (hkey : f0.1 ≠ "")
    (hfull : (sc.forms.length : Int) ≥ sc.limiter.GetLimits.maxForms)
    (hdup : form.formID ∈ sc.forms.map Prod.fst)
    (hne : form.formID ≠ f0.1) :
    (sc.AddForm now form).1.forms
        = mapInsert (mapDelete sc.forms f0.1) form.formID form
    ∧ (sc.AddForm now form).1.forms.length + 1 = sc.forms.length := by
  have hfind : findOldest (sc.forms.map (fun e => (e.1, e.2.firstSeen))) now
      = (f0.1, f0.2.firstSeen) := by
    apply findOldest_eq_min
    · exact List.mem_map_of_mem _ hmem
    · exact hold
    · intro e' he' hnee
      obtain ⟨e, hemem, rfl⟩ := List.mem_map.1 he'
      by_cases hee : e = f0
      · subst hee
        exact absurd rfl hnee
      · exact hmin e hemem hee
  have hforms : (sc.AddForm now form).1.forms
      = mapInsert (mapDelete sc.forms f0.1) form.formID form := by
    unfold SiteContext.AddForm
    dsimp only
    rw [if_pos hfull, hfind, if_pos hkey]
  refine ⟨hforms, ?_⟩
  rw [hforms]
  rw [length_mapInsert_of_mem _ _ _ (mem_keys_mapDelete hdup hne)]
  have h2 := length_mapDelete_add_one sc.forms f0.1 hnodup (List.mem_map_of_mem _ hmem)
  omega

/-- Witness for claim C10 at a concrete input: re-adding the known form
`"y"` at capacity (`MaxForms = 2`) deletes the unrelated oldest form
`"x"` and shrinks the map from 2 entries to 1. -/
theorem addForm_capacity_branch_on_existing_witness :
    (SiteContext.AddForm
        { NewSiteContextWithLimiter "h"
            { limits := { DefaultContextLimits with maxForms := 2 } } 0 with
          forms := [("x",
              { formID := "x", action := "/a", method := "POST",
                hasCSRFToken := false, csrfTokenName := "", fields := [],
                firstSeen := 1 }),
            ("y",
              { formID := "y", action := "/b", method := "POST",
                hasCSRFToken := false, csrfTokenName := "", fields := [],
                firstSeen := 5 })] }
        10
        { formID := "y", action := "/b", method := "POST",
          hasCSRFToken := true, csrfTokenName := "t", fields := [],
          firstSeen := 7 }).1.forms.length + 1 = 2 :=
  (addForm_capacity_branch_on_existing
    { NewSiteContextWithLimiter "h"
        { limits := { DefaultContextLimits with maxForms := 2 } } 0 with
      forms := [("x",
          { formID := "x", action := "/a", method := "POST",
            hasCSRFToken := false, csrfTokenName := "", fields := [],
            firstSeen := 1 }),
        ("y",
          { formID := "y", action := "/b", method := "POST",
            hasCSRFToken := false, csrfTokenName := "", fields := [],
            firstSeen := 5 })] }
    10
    { formID := "y", action := "/b", method := "POST",
      hasCSRFToken := true, csrfTokenName := "t", fields := [],
      firstSeen := 7 }
    ("x",
      { formID := "x", action := "/a", method := "POST",
        hasCSRFToken := false, csrfTokenName := "", fields := [],
        firstSeen := 1 })
    (by decide) (by decide) (by decide) (by decide) (by decide) (by decide)
    (by decide) (by decide)).2

/-! Claim C4 -/

/-- Claim C4: a `TimedRequest` whose timestamp is already stale on arrival
(`ShouldCleanup` true) makes `AddRecentRequest` a silent no-op: no error
and the entire context unchanged (in particular `RecentRequests`,
`RequestCount` and `LastActivity` keep their prior values). -/
theorem addRecentRequest_stale_noop (sc : SiteContext) (now : Int)
    (request : TimedRequest)
    (h : sc.limiter.ShouldCleanup now request.timestamp = true) :
    sc.AddRecentRequest now request = (sc, none) := by
  unfold SiteContext.AddRecentRequest
  rw [if_pos h]

/-- Witness for claim C4: a 0-timestamp request at clock 200000 under the
default 24h age window is silently dropped. -/
theorem addRecentRequest_stale_noop_witness :
    (NewSiteContext "h" 200000).AddRecentRequest 200000
        { id := "", timestamp := 0, method := "GET", path := "/",
          statusCode := 200, referer := "", sessionID := "", duration := 0 }
      = (NewSiteContext "h" 200000, none) :=
  addRecentRequest_stale_noop _ _ _ (by decide)

/-! Claim C5 -/

/-- Claim C5: with the default `MaxRecentRequests = 50`, sixty sequential
fresh requests numbered 1..60 (by timestamp) leave exactly 50 stored
requests, namely numbers 11..60 oldest-first, while the lifetime counter
`requestCount` reads 60. -/
theorem sixty_requests_scenario :
    (applyOps (NewSiteContext "h" 0) ((List.range 60).map (fun i =>
      MutOp.addRecentRequest 0
        { id := "", timestamp := (i : Int) + 1, method := "GET", path := "/",
          statusCode := 200, referer := "", sessionID := "",
          duration := 0 }))).recentRequests.length = 50 ∧
    (applyOps (NewSiteContext "h" 0) ((List.range 60).map (fun i =>
      MutOp.addRecentRequest 0
        { id := "", timestamp := (i : Int) + 1, method := "GET", path := "/",
          statusCode := 200, referer := "", sessionID := "",
          duration := 0 }))).recentRequests.map (fun r => r.timestamp)
        = (List.range 50).map (fun i => (i : Int) + 11) ∧
    (applyOps (NewSiteContext "h" 0) ((List.range 60).map (fun i =>
      MutOp.addRecentRequest 0
        { id := "", timestamp := (i : Int) + 1, method := "GET", path := "/",
          statusCode := 200, referer := "", sessionID := "",
          duration := 0 }))).requestCount = 60 := by
  decide

/-! Claim C6 -/

/-- Claim C6: `UpdateLimits` rejects a policy in which any of the six
fields is nonpositive, returning an error that names an offending field
and leaving the active policy untouched; with all six fields positive it
replaces the policy wholesale with no error.  In particular
`MaxRecentRequests = -1` yields exactly the message
"MaxRecentRequests must be positive". -/
theorem updateLimits_validation (cl : ContextLimiter) (nl : ContextLimits) :
    (0 < nl.maxRecentRequests → 0 < nl.maxForms → 0 < nl.maxResources →
      0 < nl.maxAgeHours → 0 < nl.maxURLPatterns → 0 < nl.maxNotesPerURL →
      cl.UpdateLimits nl = ({ limits := nl }, none))
  ∧ ((nl.maxRecentRequests ≤ 0 ∨ nl.maxForms ≤ 0 ∨ nl.maxResources ≤ 0 ∨
      nl.maxAgeHours ≤ 0 ∨ nl.maxURLPatterns ≤ 0 ∨ nl.maxNotesPerURL ≤ 0) →
      (cl.UpdateLimits nl).1 = cl ∧
      ∃ msg, (cl.UpdateLimits nl).2 = some msg ∧
        ((msg = "MaxRecentRequests must be positive" ∧ nl.maxRecentRequests ≤ 0) ∨
         (msg = "MaxForms must be positive" ∧ nl.maxForms ≤ 0) ∨
         (msg = "MaxResources must be positive" ∧ nl.maxResources ≤ 0) ∨
         (msg = "MaxAgeHours must be positive" ∧ nl.maxAgeHours ≤ 0) ∨
         (msg = "MaxURLPatterns must be positive" ∧ nl.maxURLPatterns ≤ 0) ∨
         (msg = "MaxNotesPerURL must be positive" ∧ nl.maxNotesPerURL ≤ 0)))
  ∧ (nl.maxRecentRequests = -1 →
      cl.UpdateLimits nl = (cl, some ("MaxRecentRequests must be positive"))) := by
  unfold ContextLimiter.UpdateLimits
  refine ⟨?_, ?_, ?_⟩
  · intro h1 h2 h3 h4 h5 h6
    rw [if_neg (by omega), if_neg (by omega), if_neg (by omega),
      if_neg (by omega), if_neg (by omega), if_neg (by omega)]
  · intro hbad
    split_ifs with g1 g2 g3 g4 g5 g6
    · exact ⟨rfl, _, rfl, Or.inl ⟨rfl, g1⟩⟩
    · exact ⟨rfl, _, rfl, Or.inr (Or.inl ⟨rfl, g2⟩)⟩
    · exact ⟨rfl, _, rfl, Or.inr (Or.inr (Or.inl ⟨rfl, g3⟩))⟩
    · exact ⟨rfl, _, rfl, Or.inr (Or.inr (Or.inr (Or.inl ⟨rfl, g4⟩)))⟩
    · exact ⟨rfl, _, rfl, Or.inr (Or.inr (Or.inr (Or.inr (Or.inl ⟨rfl, g5⟩))))⟩
    · exact ⟨rfl, _, rfl, Or.inr (Or.inr (Or.inr (Or.inr (Or.inr ⟨rfl, g6⟩))))⟩
    · rcases hbad with h | h | h | h | h | h <;> omega
  · intro hm1
    rw [if_pos (by omega)]

/-- Witness for claim C6: updating the default limiter with
`MaxRecentRequests = -1` returns the named error and keeps the limiter. -/
theorem updateLimits_validation_witness :
    (NewContextLimiter none).UpdateLimits
        { DefaultContextLimits with maxRecentRequests := -1 }
      = (NewContextLimiter none, some ("MaxRecentRequests must be positive")) :=
  (updateLimits_validation (NewContextLimiter none)
    { DefaultContextLimits with maxRecentRequests := -1 }).2.2 rfl

/-! Claim C7 -/

/-- Claim C7 counterexample: no sanity ceiling exists for `MaxAgeHours` —
whatever six ceilings one proposes, `ValidateLimits` accepts a policy
whose `MaxAgeHours` exceeds its proposed ceiling (the source checks only
the other five fields). -/
theorem validateLimits_no_maxAgeHours_ceiling :
    ¬ ∃ (c1 c2 c3 c4 c5 c6 : Int), ∀ l : ContextLimits,
      (({ limits := l } : ContextLimiter).ValidateLimits).isSome = true ↔
        (c1 < l.maxRecentRequests ∨ c2 < l.maxForms ∨ c3 < l.maxResources ∨
         c4 < l.maxAgeHours ∨ c5 < l.maxURLPatterns ∨ c6 < l.maxNotesPerURL) := by
  rintro ⟨c1, c2, c3, c4, c5, c6, h⟩
  have h2 := (h { DefaultContextLimits with maxAgeHours := c4 + 1 }).2
    (by right; right; right; left; simp)
  simp [ContextLimiter.ValidateLimits, DefaultContextLimits] at h2

/-- Claim C7 (amended): `ValidateLimits` enforces ceilings on exactly five
fields — it errors iff `MaxRecentRequests > 1000`, `MaxForms > 500`,
`MaxResources > 500`, `MaxURLPatterns > 1000` or `MaxNotesPerURL > 1000`;
`MaxAgeHours` is never checked. -/
theorem validateLimits_ceilings_iff (cl : ContextLimiter) :
    (cl.ValidateLimits).isSome = true ↔
      (1000 < cl.limits.maxRecentRequests ∨ 500 < cl.limits.maxForms ∨
       500 < cl.limits.maxResources ∨ 1000 < cl.limits.maxURLPatterns ∨
       1000 < cl.limits.maxNotesPerURL) := by
  unfold ContextLimiter.ValidateLimits
  split_ifs with g1 g2 g3 g4 g5 <;> simp <;> omega

/-! Claim C8 -/

/-- Claim C8: the registry-level `UpdateURLPattern` rejects a nil context
with the error "siteContext cannot be nil" and a nil note with the error
"urlNote cannot be nil", synchronously and without touching any state. -/
theorem updateURLPattern_nil_rejection (m : SiteContextManager) (now : Int)
    (url method : String) (urlNote : Option URLNote) (sc : SiteContext) :
    m.UpdateURLPattern now none url method urlNote
        = Except.error ("siteContext cannot be nil")
    ∧ m.UpdateURLPattern now (some sc) url method none
        = Except.error ("urlNote cannot be nil") :=
  ⟨rfl, rfl⟩

/-! Claim C9 -/

/-- Claim C9: `GetMemoryUsage` returns exactly
`1024 + 200·MaxRecentRequests + 500·MaxForms + 300·MaxResources +
400·MaxURLPatterns + 150·MaxURLPatterns·MaxNotesPerURL` bytes, computed
solely from the configured caps: two contexts sharing the same limits
report the same number regardless of their actual contents. -/
theorem getMemoryUsage_from_caps (sc1 sc2 : SiteContext)
    (h : sc1.limiter.GetLimits = sc2.limiter.GetLimits) :
    sc1.GetMemoryUsage
        = 1024 + 200 * sc1.limiter.GetLimits.maxRecentRequests
          + 500 * sc1.limiter.GetLimits.maxForms
          + 300 * sc1.limiter.GetLimits.maxResources
          + 400 * sc1.limiter.GetLimits.maxURLPatterns
          + 150 * (sc1.limiter.GetLimits.maxURLPatterns
              * sc1.limiter.GetLimits.maxNotesPerURL)
    ∧ sc1.GetMemoryUsage = sc2.GetMemoryUsage := by
  constructor
  · unfold SiteContext.GetMemoryUsage ContextLimiter.GetMemoryUsage
      ContextLimiter.GetLimits
    ring
  · have h2 : sc1.limiter.limits = sc2.limiter.limits := h
    unfold SiteContext.GetMemoryUsage ContextLimiter.GetMemoryUsage
    rw [h2]

/-- Witness for claim C9: an empty context and one holding a request
report the same estimate under the same (default) limits. -/
theorem getMemoryUsage_from_caps_witness :
    (NewSiteContext "a" 0).GetMemoryUsage
      = ({ NewSiteContext "b" 0 with
            recentRequests :=
              [{ id := "r", timestamp := 1, method := "GET", path := "/",
                 statusCode := 200, referer := "", sessionID := "",
                 duration := 0 }],
            requestCount := 1 }).GetMemoryUsage :=
  (getMemoryUsage_from_caps (NewSiteContext "a" 0)
    { NewSiteContext "b" 0 with
        recentRequests :=
          [{ id := "r", timestamp := 1, method := "GET", path := "/",
             statusCode := 200, referer := "", sessionID := "",
             duration := 0 }],
        requestCount := 1 } rfl).2

end Hackerecon
